import Mathlib

/-!
Verification development for the habit-tracker web application.

This file shallowly embeds the calendar/heatmap grid builder, the
intensity and color mapping, the optimistic-update click handler, and the
server-side habit/entry procedures, and proves (or refutes) the frozen
specification claims about them.

Modelling conventions:
* JavaScript Date values are modelled time-zone-naively (the spec's own
  convention): an instant is a pair of a calendar day number (days since
  1970-01-01) and a minute-of-day; local time and UTC coincide and there
  is no DST, so the source's Math.ceil over an exact day difference is
  the identity.
* JavaScript numbers are modelled as Nat / Int / Rat (exact arithmetic).
* Fallible server procedures return Except.
-/

/-- An instant in time: calendar day number (days since 1970-01-01) plus
minute within the day. setHours(0,0,0,0) zeroes the minute component. -/
structure Instant where
  day : Int
  minute : Nat
deriving DecidableEq

/-- Model of date.setHours(0, 0, 0, 0): truncate to local midnight. -/
def Instant.normalize (t : Instant) : Instant :=
  { t with minute := 0 }

/-- Chronological order on instants (valid when minutes are below 1440,
which holds for every instant this development constructs). -/
def Instant.leb (a b : Instant) : Bool :=
  a.day < b.day || (a.day == b.day && a.minute ≤ b.minute)

/-- Day number of a civil calendar date (Howard Hinnant's algorithm,
as implemented by the JavaScript Date for year/month/day construction);
month and day are 1-based.  civilDay 1970 1 1 = 0. -/
def civilDay (y m d : Nat) : Int :=
  let y2 := if m ≤ 2 then y - 1 else y
  let era := y2 / 400
  let yoe := y2 - era * 400
  let mp := (m + 9) % 12
  let doy := (153 * mp + 2) / 5 + d - 1
  let doe := yoe * 365 + yoe / 4 - yoe / 100 + doy
  ((era * 146097 + doe : Nat) : Int) - 719468

/-- Model of Date.prototype.getDay: 0 = Sunday .. 6 = Saturday.
Day 0 (1970-01-01) was a Thursday. -/
def dayOfWeek (d : Int) : Int :=
  (d + 4) % 7

/-- The view window of the heatmap: rolling last-N-days, or a calendar
year (the selectedYear prop; null means rolling). -/
inductive ViewMode where
  | rolling (days : Nat)
  | year (y : Nat)
deriving DecidableEq

/-- Inputs of the heatmapData useMemo in habit-heatmap.tsx: the habit's
entries (already reduced to calendar-day numbers and counts, as the
component's entryMap keys them by ISO date string), the daily goal, the
current day, and the window mode. -/
structure HeatmapParams where
  today : Int
  dailyGoal : Nat
  entries : List (Int × Nat)
  mode : ViewMode
deriving DecidableEq

/-- Lookup in the entryMap built by heatmapData: the map is populated by
iterating the entries in order with set, so the last entry for a given
day wins; a missing day yields 0 (the component's ?? 0). -/
def entryCount (entries : List (Int × Nat)) (d : Int) : Nat :=
  match entries.reverse.find? (fun e => e.1 == d) with
  | some e => e.2
  | none => 0

/-- Model of Math.min(count / habit.dailyGoal, 1) with exact rational
arithmetic, written with an explicit comparison so that it evaluates
inside the kernel; intensityQ_eq_min states that it is the minimum. -/
def intensityQ (dailyGoal count : Nat) : ℚ :=
  if (count : ℚ) / (dailyGoal : ℚ) ≤ 1 then (count : ℚ) / (dailyGoal : ℚ) else 1

theorem intensityQ_eq_min (dailyGoal count : Nat) :
    intensityQ dailyGoal count = min ((count : ℚ) / (dailyGoal : ℚ)) 1 := by
  simp [intensityQ, min_def]

/-- startDate of the window: January 1st in year mode, today minus
(days - 1) in rolling mode. -/
def windowStart (p : HeatmapParams) : Int :=
  match p.mode with
  | .year y => civilDay y 1 1
  | .rolling days => p.today - ((days : Int) - 1)

/-- endDate of the window: December 31st in year mode, today in rolling
mode. -/
def windowEnd (p : HeatmapParams) : Int :=
  match p.mode with
  | .year y => civilDay y 12 31
  | .rolling _ => p.today

/-- The most recent Sunday on or before the window start (the source
subtracts startDate.getDay() days). -/
def alignedStart (p : HeatmapParams) : Int :=
  windowStart p - dayOfWeek (windowStart p)

/-- Total number of generated day cells, from the aligned start through
the window end inclusive.  The source's Math.ceil over the millisecond
difference divided by a day is exact in the DST-free model. -/
def totalDays (p : HeatmapParams) : Nat :=
  (windowEnd p - alignedStart p + 1).toNat

/-- Number of trailing null cells appended to complete the final week
(6 - endDate.getDay()). -/
def padCount (p : HeatmapParams) : Nat :=
  (6 - dayOfWeek (windowEnd p)).toNat

/-- One rendered day cell of the heatmap. -/
structure DayCell where
  date : Int
  count : Nat
  intensity : ℚ
  isToday : Bool
deriving DecidableEq

/-- The cell generated for the i-th day after the aligned start. -/
def mkCell (p : HeatmapParams) (i : Nat) : DayCell :=
  let date := alignedStart p + i
  let count := entryCount p.entries date
  { date := date
    count := count
    intensity := intensityQ p.dailyGoal count
    isToday := date == p.today }

/-- The allDays array of heatmapData: one generated cell per day from the
aligned start through the window end, then null padding up to the
following Saturday. -/
def allDays (p : HeatmapParams) : List (Option DayCell) :=
  (List.range (totalDays p)).map (fun i => some (mkCell p i))
    ++ List.replicate (padCount p) none

/-- Slices a list into consecutive chunks of 7 (the source's loop pushing
allDays.slice(i, i + 7)); the first argument is fuel, which any bound of
at least the list's length makes irrelevant. -/
def chunks7 : Nat → List α → List (List α)
  | 0, _ => []
  | _, [] => []
  | n + 1, l => l.take 7 :: chunks7 n (l.drop 7)

/-- The weeks grid returned by the heatmapData useMemo in
habit-heatmap.tsx: allDays sliced into rows of 7. -/
def heatmapData (p : HeatmapParams) : List (List (Option DayCell)) :=
  chunks7 (allDays p).length (allDays p)

/-- Hexadecimal value of one character, as parseInt radix 16 reads it;
none for a non-hex character. -/
def hexVal (c : Char) : Option Nat :=
  if '0' ≤ c ∧ c ≤ '9' then some (c.toNat - '0'.toNat)
  else if 'a' ≤ c ∧ c ≤ 'f' then some (c.toNat - 'a'.toNat + 10)
  else if 'A' ≤ c ∧ c ≤ 'F' then some (c.toNat - 'A'.toNat + 10)
  else none

/-- Model of parseInt(s, 16): reads the longest hex-digit prefix and
returns none (NaN) when the string starts with a non-hex character. -/
def parseInt16 (cs : List Char) : Option Nat :=
  match cs.takeWhile (fun c => (hexVal c).isSome) with
  | [] => none
  | ds => some (ds.foldl (fun acc c => 16 * acc + (hexVal c).getD 0) 0)

/-- Observable result of getBackgroundColor: either the fixed neutral
tone string hsl(var(--foreground) / 0.1), or an rgba(r, g, b, a) string;
a none channel models the NaN a malformed color would produce. -/
inductive CSSColor where
  | neutral : CSSColor
  | rgba (r g b : Option Nat) (a : ℚ) : CSSColor
deriving DecidableEq

/-- Model of getBackgroundColor in habit-heatmap.tsx: intensity 0 yields
the fixed neutral tone; otherwise the hash signs are removed from the
habit color, the three 2-character substrings are parsed base 16, and an
rgba color with alpha equal to the intensity is produced. -/
def getBackgroundColor (color : String) (intensity : ℚ) : CSSColor :=
  if intensity = 0 then
    .neutral
  else
    let hex := color.toList.filter (fun c => c != '#')
    let r := parseInt16 (hex.take 2)
    let g := parseInt16 ((hex.drop 2).take 2)
    let b := parseInt16 ((hex.drop 4).take 2)
    .rgba r g b intensity

/-- Shape of a habitEntry row as it sits in the client's getLastNDays
query cache (dates reduced to calendar-day numbers, as every comparison
in the component goes through the ISO date string). -/
structure CacheEntry where
  id : String
  habitId : String
  date : Int
  count : Nat
deriving DecidableEq

/-- The habit props the heatmap component receives. -/
structure HabitProps where
  id : String
  dailyGoal : Nat
  color : String
deriving DecidableEq

/-- Client-side state of one HabitHeatmap: the error banner, the cached
getLastNDays data for the habit (none when the query has no data yet),
whether that cache is currently valid (invalidate flips it off and
triggers a refetch), and the times at which scheduled error-clearing
timeouts fire. -/
structure ClientState where
  error : Option String
  cache : Option (List CacheEntry)
  cacheValid : Bool
  pendingClearAt : List Nat
deriving DecidableEq

/-- The upsert mutation input sent to the server by handleDayClick. -/
structure UpsertInput where
  habitId : String
  date : Int
  count : Nat
deriving DecidableEq

/-- The setData updater of handleDayClick: the first cached entry whose
ISO date matches the clicked date gets its count replaced (findIndex
branch); none signals that no entry matched. -/
def updateFirstCache (date : Int) (newCount : Nat) :
    List CacheEntry → Option (List CacheEntry)
  | [] => none
  | e :: rest =>
    if e.date = date then
      some ({ e with count := newCount } :: rest)
    else
      (updateFirstCache date newCount rest).map (fun l => e :: l)

/-- Model of handleDayClick in habit-heatmap.tsx: clear the error banner,
compute the new count (reset to 0 at or above the goal, else increment),
optimistically rewrite the cached entry for the clicked date (appending
a placeholder entry when none exists; the cache is left untouched when
the query has no data), and emit the upsert mutation. -/
def handleDayClick (habit : HabitProps) (now : Nat) (st : ClientState)
    (date : Int) (currentCount : Nat) : ClientState × UpsertInput :=
  let newCount := if currentCount ≥ habit.dailyGoal then 0 else currentCount + 1
  let cache' :=
    match st.cache with
    | none => none
    | some old =>
      match updateFirstCache date newCount old with
      | some updated => some updated
      | none =>
        some (old ++ [{ id := "temp-" ++ toString now
                        habitId := habit.id
                        date := date
                        count := newCount }])
  ({ st with error := none, cache := cache' },
   { habitId := habit.id, date := date, count := newCount })

/-- Model of the onClick handler attached to a rendered day cell: only a
cell whose isToday flag is set reaches handleDayClick; every other cell's
click is a no-op that issues no mutation. -/
def onCellClick (habit : HabitProps) (now : Nat) (day : DayCell)
    (st : ClientState) : ClientState × Option UpsertInput :=
  if day.isToday then
    let r := handleDayClick habit now st day.date day.count
    (r.1, some r.2)
  else
    (st, none)

/-- Model of the upsert mutation's onError callback: set the error
banner, invalidate the habit's getLastNDays cache (which triggers a
refetch of the authoritative data), and schedule a timeout that clears
the error 3000 milliseconds later. -/
def onUpsertError (msg : String) (now : Nat) (st : ClientState) : ClientState :=
  { st with
    error := some ("Failed to update: " ++ msg)
    cacheValid := false
    pendingClearAt := st.pendingClearAt ++ [now + 3000] }

/-- The scheduled setTimeout callback: clears the error banner; it is
driven purely by the timer, with no user input. -/
def fireErrorClear (st : ClientState) : ClientState :=
  { st with error := none }

/-- Model of the query client refetching an invalidated query: an invalid
cache is replaced wholesale by the authoritative server rows. -/
def refetchIfInvalid (serverRows : List CacheEntry) (st : ClientState) :
    ClientState :=
  if st.cacheValid then st
  else { st with cache := some serverRows, cacheValid := true }

/-- A row of the Habit table. -/
structure HabitRow where
  id : String
  userId : String
  dailyGoal : Nat
  color : String
  isActive : Bool
deriving DecidableEq

/-- A row of the HabitEntry table.  Identifiers are modelled as a counter
drawn from the store's nextId. -/
structure EntryRow where
  id : Nat
  habitId : String
  date : Instant
  count : Nat
deriving DecidableEq

/-- The backing store. -/
structure DB where
  habits : List HabitRow
  entries : List EntryRow
  nextId : Nat
deriving DecidableEq

/-- Error codes thrown by the routers. -/
inductive TRPCErrCode where
  | unauthorized
deriving DecidableEq

/-- Result of a tRPC procedure. -/
abbrev TRPC (α : Type) := Except TRPCErrCode α

/-- Model of ctx.db.habit.findUnique on the id. -/
def findHabit (db : DB) (id : String) : Option HabitRow :=
  db.habits.find? (fun h => h.id == id)

/-- The ownership prelude shared by every habitEntry procedure:
if (!habit?.userId || habit.userId !== ctx.session.user.id) throw
UNAUTHORIZED.  An absent habit, an empty (falsy) userId, and a foreign
owner all take the throw branch. -/
def habitAuthEntry (db : DB) (user habitId : String) : TRPC HabitRow :=
  match findHabit db habitId with
  | none => .error .unauthorized
  | some h =>
    if h.userId = "" ∨ h.userId ≠ user then .error .unauthorized
    else .ok h

/-- The ownership prelude of habit.update, habit.archive and
habit.delete: if (habit?.userId !== ctx.session.user.id) throw
UNAUTHORIZED; an absent habit compares undefined against the user id and
throws. -/
def habitAuthOwner (db : DB) (user habitId : String) : TRPC HabitRow :=
  match findHabit db habitId with
  | none => .error .unauthorized
  | some h =>
    if h.userId ≠ user then .error .unauthorized
    else .ok h

/-- Insertion into a list kept ascending by date. -/
def insertByDate (r : EntryRow) : List EntryRow → List EntryRow
  | [] => [r]
  | x :: rest =>
    if r.date.leb x.date then r :: x :: rest
    else x :: insertByDate r rest

/-- Ascending sort by date, modelling the orderBy date asc clauses. -/
def sortByDate (l : List EntryRow) : List EntryRow :=
  l.foldr insertByDate []

/-- habitEntry.getByHabitAndDateRange: ownership check, then the habit's
entries with startDate <= date <= endDate, ascending by date. -/
def getByHabitAndDateRangeOp (db : DB) (user habitId : String)
    (startDate endDate : Instant) : TRPC (List EntryRow) :=
  match habitAuthEntry db user habitId with
  | .error e => .error e
  | .ok _ =>
    .ok (sortByDate (db.entries.filter (fun r =>
      r.habitId == habitId && startDate.leb r.date && r.date.leb endDate)))

/-- habitEntry.getLastNDays: ownership check, then the habit's entries
between now minus the requested number of days and now, ascending by
date.  Both bounds keep the wall-clock time of day, exactly as the
source's new Date() endpoints do. -/
def getLastNDaysOp (db : DB) (user habitId : String) (days : Nat)
    (now : Instant) : TRPC (List EntryRow) :=
  match habitAuthEntry db user habitId with
  | .error e => .error e
  | .ok _ =>
    let startDate : Instant := { day := now.day - days, minute := now.minute }
    .ok (sortByDate (db.entries.filter (fun r =>
      r.habitId == habitId && startDate.leb r.date && r.date.leb now)))

/-- habitEntry.getByHabitAndDate: ownership check, then the unique entry
for the habit and the midnight-normalized date, if any. -/
def getByHabitAndDateOp (db : DB) (user habitId : String)
    (date : Instant) : TRPC (Option EntryRow) :=
  match habitAuthEntry db user habitId with
  | .error e => .error e
  | .ok _ =>
    let nd := date.normalize
    .ok (db.entries.find? (fun r => r.habitId == habitId && r.date == nd))

/-- Rewrites the count of the first row matching the composite
(habitId, date) key; the unique constraint makes at most one row match. -/
def updateRowCount (habitId : String) (nd : Instant) (newCount : Nat) :
    List EntryRow → List EntryRow
  | [] => []
  | r :: rest =>
    if r.habitId = habitId ∧ r.date = nd then
      { r with count := newCount } :: rest
    else
      r :: updateRowCount habitId nd newCount rest

/-- habitEntry.upsert: ownership check, normalize the date to midnight,
then update the count of the row keyed by (habitId, normalized date) or
create it with the given count.  Returns the resulting row and the new
store (unchanged on an authorization failure). -/
def upsertOp (db : DB) (user habitId : String) (date : Instant)
    (count : Nat) : TRPC EntryRow × DB :=
  match habitAuthEntry db user habitId with
  | .error e => (.error e, db)
  | .ok _ =>
    let nd := date.normalize
    match db.entries.find? (fun r => r.habitId == habitId && r.date == nd) with
    | some r =>
      (.ok { r with count := count },
       { db with entries := updateRowCount habitId nd count db.entries })
    | none =>
      let row : EntryRow :=
        { id := db.nextId, habitId := habitId, date := nd, count := count }
      (.ok row,
       { db with entries := db.entries ++ [row], nextId := db.nextId + 1 })

/-- habitEntry.increment: ownership check, default the date to now,
normalize it to midnight, then add the amount to the existing row for
(habitId, normalized date) — the update is keyed by that row's id — or
create the row with count equal to the amount. -/
def incrementOp (db : DB) (user habitId : String) (date : Option Instant)
    (now : Instant) (amount : Nat) : TRPC EntryRow × DB :=
  match habitAuthEntry db user habitId with
  | .error e => (.error e, db)
  | .ok _ =>
    let nd := (date.getD now).normalize
    match db.entries.find? (fun r => r.habitId == habitId && r.date == nd) with
    | some r =>
      (.ok { r with count := r.count + amount },
       { db with entries := db.entries.map (fun x =>
          if x.id = r.id then { x with count := r.count + amount } else x) })
    | none =>
      let row : EntryRow :=
        { id := db.nextId, habitId := habitId, date := nd, count := amount }
      (.ok row,
       { db with entries := db.entries ++ [row], nextId := db.nextId + 1 })

/-- habitEntry.delete: looks the entry up by id together with its habit;
a missing entry and a foreign owner both throw UNAUTHORIZED (a dangling
habit reference cannot arise and is folded into the throw branch). -/
def deleteEntryOp (db : DB) (user : String) (entryId : Nat) :
    TRPC EntryRow × DB :=
  match db.entries.find? (fun r => r.id == entryId) with
  | none => (.error .unauthorized, db)
  | some e =>
    match findHabit db e.habitId with
    | none => (.error .unauthorized, db)
    | some h =>
      if h.userId ≠ user then (.error .unauthorized, db)
      else
        (.ok e, { db with entries := db.entries.filter (fun r => r.id != entryId) })

/-- habit.getById: fetch by id; an existing habit with a foreign owner
throws UNAUTHORIZED, an absent habit is returned as null. -/
def getByIdOp (db : DB) (user habitId : String) : TRPC (Option HabitRow) :=
  match findHabit db habitId with
  | none => .ok none
  | some h =>
    if h.userId ≠ user then .error .unauthorized
    else .ok (some h)

/-- habit.update: ownership check, then overwrite the given fields (the
model carries the fields relevant to the core). -/
def updateHabitOp (db : DB) (user habitId : String) (dailyGoal : Nat)
    (color : String) : TRPC HabitRow × DB :=
  match habitAuthOwner db user habitId with
  | .error e => (.error e, db)
  | .ok h =>
    let h' := { h with dailyGoal := dailyGoal, color := color }
    (.ok h',
     { db with habits := db.habits.map (fun x => if x.id = habitId then h' else x) })

/-- habit.archive: ownership check, then set isActive to false. -/
def archiveHabitOp (db : DB) (user habitId : String) : TRPC HabitRow × DB :=
  match habitAuthOwner db user habitId with
  | .error e => (.error e, db)
  | .ok h =>
    let h' := { h with isActive := false }
    (.ok h',
     { db with habits := db.habits.map (fun x => if x.id = habitId then h' else x) })

/-- habit.delete: ownership check, then remove the habit (its entries
cascade away with it). -/
def deleteHabitOp (db : DB) (user habitId : String) : TRPC HabitRow × DB :=
  match habitAuthOwner db user habitId with
  | .error e => (.error e, db)
  | .ok h =>
    (.ok h,
     { db with habits := db.habits.filter (fun x => x.id != habitId)
               entries := db.entries.filter (fun r => r.habitId != habitId) })

/-- One store mutation of the entry table, as issued by clients. -/
inductive StoreOp where
  | upsert (user habitId : String) (date : Instant) (count : Nat)
  | increment (user habitId : String) (date : Option Instant)
      (now : Instant) (amount : Nat)
deriving DecidableEq

/-- The store after one mutation. -/
def applyOp (db : DB) : StoreOp → DB
  | .upsert user habitId date count => (upsertOp db user habitId date count).2
  | .increment user habitId date now amount =>
      (incrementOp db user habitId date now amount).2

/-- The store after a sequence of mutations. -/
def applyOps (db : DB) (ops : List StoreOp) : DB :=
  ops.foldl applyOp db

/-- At most one entry row per (habit, calendar day) pair. -/
def atMostOnePerDay (db : DB) : Prop :=
  (db.entries.map (fun r => (r.habitId, r.date.day))).Nodup

/-- The entry-table invariant: stored dates are midnight-normalized and
the (habit, calendar day) key is unique. -/
def storeInv (db : DB) : Prop :=
  (∀ r ∈ db.entries, r.date.minute = 0) ∧ atMostOnePerDay db

instance : DecidablePred storeInv := fun db => by
  unfold storeInv atMostOnePerDay
  infer_instance

/-- The entries the dashboard hands one heatmap: the data of the
getLastNDays query for the habit (an unresolved or failed query renders
as an empty list), reduced to day numbers the way the component's
entryMap keys them. -/
def dashboardEntriesForHabit (db : DB) (user habitId : String)
    (days : Nat) (now : Instant) : List (Int × Nat) :=
  match getLastNDaysOp db user habitId days now with
  | .ok rows => rows.map (fun r => (r.date.day, r.count))
  | .error _ => []

/-- The grid the dashboard renders for one habit: getLastNDays data fed
into heatmapData, with the mode chosen by the year selector (null
meaning rolling). -/
def dashboardHeatmap (db : DB) (user : String) (habit : HabitRow)
    (days : Nat) (now : Instant) (selectedYear : Option Nat) :
    List (List (Option DayCell)) :=
  heatmapData
    { today := now.day
      dailyGoal := habit.dailyGoal
      entries := dashboardEntriesForHabit db user habit.id days now
      mode := match selectedYear with
              | some y => .year y
              | none => .rolling days }

/-- The observable (date, count, isToday) data of a grid cell. -/
def cellView (c : DayCell) : Int × Nat × Bool :=
  (c.date, c.count, c.isToday)

/-- The one-day rolling window ending 2024-01-01, used to instantiate
claim theorems about the grid at a concrete input. -/
def pRoll1 : HeatmapParams :=
  { today := civilDay 2024 1 1, dailyGoal := 1, entries := [],
    mode := .rolling 1 }

/-- The store used to exhibit C4's fetch gap: one habit of user u1 with
one entry of count 5 dated 2023-06-15. -/
def dbC4 : DB :=
  { habits := [{ id := "h1", userId := "u1", dailyGoal := 3,
                 color := "#FFB3BA", isActive := true }],
    entries := [{ id := 0, habitId := "h1",
                  date := { day := civilDay 2023 6 15, minute := 0 },
                  count := 5 }],
    nextId := 1 }

theorem chunks7_join {α : Type} (fuel : Nat) :
    ∀ l : List α, l.length ≤ fuel → (chunks7 fuel l).flatten = l := by
  induction fuel with
  | zero =>
    intro l hl
    have hnil : l = [] := List.eq_nil_of_length_eq_zero (Nat.le_zero.mp hl)
    subst hnil; rfl
  | succ n ih =>
    intro l hl
    match l with
    | [] => rfl
    | a :: t =>
      show (a :: t).take 7 ++ (chunks7 n ((a :: t).drop 7)).flatten = a :: t
      rw [ih ((a :: t).drop 7) (by simp only [List.length_drop, List.length_cons] at *; omega)]
      exact List.take_append_drop 7 (a :: t)

theorem chunks7_mem_length {α : Type} (fuel : Nat) :
    ∀ l : List α, l.length ≤ fuel → 7 ∣ l.length →
      ∀ w ∈ chunks7 fuel l, w.length = 7 := by
  induction fuel with
  | zero =>
    intro l _ _ w hw
    simp [chunks7] at hw
  | succ n ih =>
    intro l hl hdvd w hw
    match l with
    | [] => simp [chunks7] at hw
    | a :: t =>
      obtain ⟨k, hk⟩ := hdvd
      have hlen : 7 ≤ (a :: t).length := by
        simp only [List.length_cons] at hk ⊢; omega
      have hw' : w = (a :: t).take 7 ∨ w ∈ chunks7 n ((a :: t).drop 7) := by
        simpa [chunks7] using hw
      rcases hw' with rfl | hw2
      · simp only [List.length_take]; omega
      · exact ih ((a :: t).drop 7)
          (by simp only [List.length_drop, List.length_cons] at *; omega)
          ⟨k - 1, by simp only [List.length_drop, List.length_cons] at *; omega⟩
          w hw2

theorem heatmapData_flatten (p : HeatmapParams) :
    (heatmapData p).flatten = allDays p :=
  chunks7_join _ _ le_rfl

theorem dayOfWeek_alignedStart (p : HeatmapParams) :
    dayOfWeek (alignedStart p) = 0 := by
  simp only [dayOfWeek, alignedStart]
  omega

theorem alignedStart_le (p : HeatmapParams) :
    alignedStart p ≤ windowStart p ∧ windowStart p < alignedStart p + 7 := by
  simp only [alignedStart, dayOfWeek]
  omega

theorem allDays_length (p : HeatmapParams) :
    (allDays p).length = totalDays p + padCount p := by
  simp [allDays]

theorem allDays_length_dvd (p : HeatmapParams)
    (h : windowStart p ≤ windowEnd p) : 7 ∣ (allDays p).length := by
  rw [allDays_length]
  simp only [totalDays, padCount, alignedStart, dayOfWeek] at *
  omega

theorem allDays_get_cell (p : HeatmapParams) (i : Nat) (hi : i < totalDays p) :
    (allDays p)[i]? = some (some (mkCell p i)) := by
  unfold allDays
  rw [List.getElem?_append_left (by simpa using hi)]
  simp [List.getElem?_map, List.getElem?_range, hi]

theorem allDays_get_pad (p : HeatmapParams) (i : Nat) (hi : totalDays p ≤ i)
    (hi2 : i < totalDays p + padCount p) :
    (allDays p)[i]? = some none := by
  unfold allDays
  rw [List.getElem?_append_right (by simpa using hi)]
  simp only [List.length_map, List.length_range]
  simp only [List.getElem?_replicate]
  have : i - totalDays p < padCount p := by omega
  simp [this]

theorem mem_allDays {p : HeatmapParams} {slot : Option DayCell}
    (h : slot ∈ allDays p) :
    slot = none ∨ ∃ i, i < totalDays p ∧ slot = some (mkCell p i) := by
  unfold allDays at h
  rcases List.mem_append.mp h with h1 | h2
  · rcases List.mem_map.mp h1 with ⟨i, hi, rfl⟩
    exact Or.inr ⟨i, List.mem_range.mp hi, rfl⟩
  · exact Or.inl (List.eq_of_mem_replicate h2)

theorem mkCell_isToday (p : HeatmapParams) (i : Nat) :
    ((mkCell p i).isToday = true) ↔ (mkCell p i).date = p.today := by
  simp [mkCell]

theorem mkCell_intensity (p : HeatmapParams) (i : Nat) :
    (mkCell p i).intensity = intensityQ p.dailyGoal (mkCell p i).count := by
  simp [mkCell]

theorem mem_grid_cell {p : HeatmapParams} {c : DayCell}
    (h : some c ∈ (heatmapData p).flatten) :
    ∃ i, i < totalDays p ∧ c = mkCell p i := by
  rw [heatmapData_flatten] at h
  rcases mem_allDays h with h1 | ⟨i, hi, he⟩
  · exact absurd h1 (by simp)
  · exact ⟨i, hi, by injection he⟩

theorem pRoll1_cell_mem (i : Nat) (hi : i < totalDays pRoll1) :
    some (mkCell pRoll1 i) ∈ (heatmapData pRoll1).flatten := by
  rw [heatmapData_flatten]
  exact List.getElem?_mem (allDays_get_cell pRoll1 i hi)

/-- C1: for every habit with dailyGoal G > 0, the click handler computes
the new count of the emitted mutation as 0 when the current count is at
or above G and as current + 1 below G, so starting from 0 and clicking
repeatedly the count runs through 0, 1, ..., G and returns to 0 after
G + 1 clicks. -/
theorem C1_click_semantics (habit : HabitProps) (now : Nat)
    (st : ClientState) (date : Int) (_hgoal : 0 < habit.dailyGoal) :
    (∀ c, habit.dailyGoal ≤ c →
        (handleDayClick habit now st date c).2.count = 0) ∧
    (∀ c, c < habit.dailyGoal →
        (handleDayClick habit now st date c).2.count = c + 1) ∧
    (∀ k, k ≤ habit.dailyGoal →
        (fun c => (handleDayClick habit now st date c).2.count)^[k] 0 = k) ∧
    (fun c => (handleDayClick habit now st date c).2.count)^[habit.dailyGoal + 1] 0
      = 0 := by
  have hf : ∀ c, (handleDayClick habit now st date c).2.count
      = if habit.dailyGoal ≤ c then 0 else c + 1 := by
    intro c
    simp [handleDayClick]
  have hiter : ∀ k, k ≤ habit.dailyGoal →
      (fun c => (handleDayClick habit now st date c).2.count)^[k] 0 = k := by
    intro k
    induction k with
    | zero => intro _; rfl
    | succ n ih =>
      intro hk
      rw [Function.iterate_succ_apply', ih (Nat.le_of_succ_le hk)]
      simp only [hf]
      split <;> omega
  refine ⟨fun c hc => by simp [hf, hc], fun c hc => by simp [hf]; omega, hiter, ?_⟩
  rw [Function.iterate_succ_apply', hiter habit.dailyGoal le_rfl]
  simp [hf]

/-- Witness for C1 at dailyGoal 3: four clicks from 0 return to 0. -/
theorem C1_click_semantics_witness :
    (fun c => (handleDayClick { id := "h1", dailyGoal := 3, color := "#FFB3BA" }
        0 { error := none, cache := none, cacheValid := true, pendingClearAt := [] }
        0 c).2.count)^[3 + 1] 0 = 0 :=
  (C1_click_semantics { id := "h1", dailyGoal := 3, color := "#FFB3BA" } 0
    { error := none, cache := none, cacheValid := true, pendingClearAt := [] }
    0 (by decide)).2.2.2

/-- C3: for dailyGoal > 0, the intensity min(count / dailyGoal, 1) lies
in the unit interval, is monotone in the count, saturates at exactly 1
precisely from count = dailyGoal on, and is the intensity every real
grid cell carries. -/
theorem C3_intensity (dailyGoal count : Nat) (h : 0 < dailyGoal) :
    intensityQ dailyGoal count = min ((count : ℚ) / (dailyGoal : ℚ)) 1 ∧
    (0 ≤ intensityQ dailyGoal count ∧ intensityQ dailyGoal count ≤ 1) ∧
    (∀ c1 c2 : Nat, c1 ≤ c2 →
        intensityQ dailyGoal c1 ≤ intensityQ dailyGoal c2) ∧
    (intensityQ dailyGoal count = 1 ↔ dailyGoal ≤ count) ∧
    (∀ (p : HeatmapParams) (c : DayCell), some c ∈ (heatmapData p).flatten →
        c.intensity = intensityQ p.dailyGoal c.count) := by
  have hq : (0 : ℚ) < (dailyGoal : ℚ) := by exact_mod_cast h
  refine ⟨intensityQ_eq_min dailyGoal count, ?_, ?_, ?_, ?_⟩
  · rw [intensityQ_eq_min]
    exact ⟨le_min (div_nonneg (by positivity) hq.le) zero_le_one, min_le_right _ _⟩
  · intro c1 c2 hc
    rw [intensityQ_eq_min, intensityQ_eq_min]
    exact min_le_min ((div_le_div_iff_of_pos_right hq).mpr (by exact_mod_cast hc)) le_rfl
  · rw [intensityQ_eq_min, min_eq_right_iff, one_le_div hq]
    exact_mod_cast Iff.rfl
  · intro p c hmem
    obtain ⟨i, _, rfl⟩ := mem_grid_cell hmem
    exact mkCell_intensity p i

/-- Witness for C3 at dailyGoal 3, count 2. -/
theorem C3_intensity_witness :
    intensityQ 3 2 = 1 ↔ 3 ≤ 2 :=
  (C3_intensity 3 2 (by decide)).2.2.2.1

set_option maxRecDepth 40000 in
/-- C2 as stated is false: in the grid for year 2024 (whose January 1st
is a Monday) the first slot, one day before the window start, is a dated
cell dated 2023-12-31 rather than a null cell — only trailing padding is
null. -/
theorem C2_counterexample :
    ((heatmapData { today := civilDay 2026 10 11, dailyGoal := 1,
                    entries := [], mode := .year 2024 }).flatten[0]?).map
        (Option.map cellView) =
      some (some (civilDay 2023 12 31, 0, false)) ∧
    civilDay 2023 12 31 < civilDay 2024 1 1 := by
  decide

/-- C2 (amended): every row of the grid has exactly 7 cells; the grid
begins on the most recent Sunday on or before the window start; every
day from that Sunday through the window end — including the padding days
before the window start — is a dated, non-null cell; only the trailing
slots after the window end up to the following Saturday are null. -/
theorem C2_grid_structure (p : HeatmapParams)
    (h : windowStart p ≤ windowEnd p) :
    (∀ w ∈ heatmapData p, w.length = 7) ∧
    ((heatmapData p).flatten[0]? = some (some (mkCell p 0)) ∧
      (mkCell p 0).date = alignedStart p) ∧
    dayOfWeek (alignedStart p) = 0 ∧
    (alignedStart p ≤ windowStart p ∧ windowStart p < alignedStart p + 7) ∧
    (∀ i : Nat, i < totalDays p →
        (heatmapData p).flatten[i]? = some (some (mkCell p i))) ∧
    (∀ i : Nat, totalDays p ≤ i → i < totalDays p + padCount p →
        (heatmapData p).flatten[i]? = some none) ∧
    (heatmapData p).flatten.length = totalDays p + padCount p := by
  have hts : 1 ≤ totalDays p := by
    have := alignedStart_le p
    simp only [totalDays]
    omega
  refine ⟨chunks7_mem_length _ _ le_rfl (allDays_length_dvd p h), ⟨?_, ?_⟩,
    dayOfWeek_alignedStart p, alignedStart_le p, ?_, ?_, ?_⟩
  · rw [heatmapData_flatten]
    exact allDays_get_cell p 0 hts
  · simp [mkCell]
  · intro i hi
    rw [heatmapData_flatten]
    exact allDays_get_cell p i hi
  · intro i hi hi2
    rw [heatmapData_flatten]
    exact allDays_get_pad p i hi hi2
  · rw [heatmapData_flatten]
    exact allDays_length p

/-- Witness for C2 (amended) at the year 2024 window: the first slot of
the grid is a dated cell on the aligned Sunday. -/
theorem C2_grid_structure_witness :
    (heatmapData { today := civilDay 2026 10 11, dailyGoal := 1,
                   entries := [], mode := .year 2024 }).flatten[0]? =
        some (some (mkCell { today := civilDay 2026 10 11, dailyGoal := 1,
                             entries := [], mode := .year 2024 } 0)) ∧
      (mkCell { today := civilDay 2026 10 11, dailyGoal := 1,
                entries := [], mode := .year 2024 } 0).date =
        alignedStart { today := civilDay 2026 10 11, dailyGoal := 1,
                       entries := [], mode := .year 2024 } :=
  (C2_grid_structure _ (by decide)).2.1

set_option maxRecDepth 40000 in
/-- C5 as stated is false: in a rolling-mode grid (one day ending on
2024-01-01) the cell for the current day carries the isToday flag, so the
flag is not produced in year mode only. -/
theorem C5_counterexample :
    ((heatmapData { today := civilDay 2024 1 1, dailyGoal := 1,
                    entries := [], mode := .rolling 1 }).flatten[1]?).map
        (Option.map cellView) =
      some (some (civilDay 2024 1 1, 0, true)) := by
  decide

/-- C5 (amended): the isToday flag is computed identically in both
modes — a real grid cell carries it exactly when its date equals the
current day; in particular in rolling mode (with at least one day) the
grid always contains today's cell, which carries the flag. -/
theorem C5_isToday_both_modes (p : HeatmapParams) :
    (∀ c : DayCell, some c ∈ (heatmapData p).flatten →
        (c.isToday = true ↔ c.date = p.today)) ∧
    (∀ days : Nat, p.mode = .rolling days → 1 ≤ days →
        ∃ c : DayCell, some c ∈ (heatmapData p).flatten ∧
          c.date = p.today ∧ c.isToday = true) := by
  constructor
  · intro c hmem
    obtain ⟨i, _, rfl⟩ := mem_grid_cell hmem
    exact mkCell_isToday p i
  · intro days hmode hdays
    have hse : windowStart p ≤ windowEnd p := by
      simp only [windowStart, windowEnd, hmode]
      omega
    have ha := alignedStart_le p
    have hts : 1 ≤ totalDays p := by
      simp only [totalDays]; omega
    have hcell := allDays_get_cell p (totalDays p - 1) (by omega)
    have hdate : (mkCell p (totalDays p - 1)).date = p.today := by
      have hend : windowEnd p = p.today := by simp [windowEnd, hmode]
      simp only [mkCell, totalDays] at *
      omega
    refine ⟨mkCell p (totalDays p - 1), ?_, hdate, ?_⟩
    · rw [heatmapData_flatten]
      exact List.getElem?_mem hcell
    · rw [mkCell_isToday]
      exact hdate

/-- Witness for C5 (amended): in the one-day rolling window ending
2024-01-01, the second grid cell carries the isToday flag exactly when
its date is 2024-01-01. -/
theorem C5_isToday_both_modes_witness :
    (mkCell pRoll1 1).isToday = true ↔ (mkCell pRoll1 1).date =
      civilDay 2024 1 1 :=
  (C5_isToday_both_modes pRoll1).1 (mkCell pRoll1 1)
    (pRoll1_cell_mem 1 (by decide))

/-- C10: only the current day's cell is interactive — clicking any grid
cell whose date is not the current day changes no client state and issues
no mutation, and any mutation a grid-cell click does issue targets the
current day for this habit. -/
theorem C10_only_today_interactive (habit : HabitProps) (now : Nat)
    (st : ClientState) (p : HeatmapParams) (c : DayCell)
    (hmem : some c ∈ (heatmapData p).flatten) :
    (c.date ≠ p.today → onCellClick habit now c st = (st, none)) ∧
    (∀ (st' : ClientState) (m : UpsertInput),
        onCellClick habit now c st = (st', some m) →
        m.date = p.today ∧ m.habitId = habit.id) := by
  obtain ⟨i, _, rfl⟩ := mem_grid_cell hmem
  constructor
  · intro hne
    have hflag : (mkCell p i).isToday = false := by
      rcases Bool.eq_false_or_eq_true (mkCell p i).isToday with ht | hf
      · exact absurd ((mkCell_isToday p i).mp ht) hne
      · exact hf
    simp [onCellClick, hflag]
  · intro st' m hm
    by_cases hflag : (mkCell p i).isToday = true
    · have hdate := (mkCell_isToday p i).mp hflag
      simp only [onCellClick, hflag, if_true] at hm
      have hm2 := congrArg Prod.snd hm
      simp only at hm2
      have : m = (handleDayClick habit now st (mkCell p i).date
          (mkCell p i).count).2 := by
        injection hm2.symm
      subst this
      exact ⟨by simp [handleDayClick, hdate], by simp [handleDayClick]⟩
    · simp only [onCellClick, hflag, if_false, Bool.not_eq_true] at hm
      rw [if_neg (by simp [Bool.not_eq_true] at hflag; simp [hflag])] at hm
      exact absurd (congrArg Prod.snd hm) (by simp)

/-- Witness for C10: clicking the non-today Sunday cell of the one-day
rolling grid ending 2024-01-01 is a no-op that issues no mutation. -/
theorem C10_only_today_interactive_witness :
    onCellClick { id := "h1", dailyGoal := 1, color := "#FFB3BA" } 0
        (mkCell pRoll1 0)
        { error := none, cache := some [], cacheValid := true,
          pendingClearAt := [] } =
      ({ error := none, cache := some [], cacheValid := true,
         pendingClearAt := [] }, none) :=
  (C10_only_today_interactive { id := "h1", dailyGoal := 1, color := "#FFB3BA" }
    0 _ pRoll1 (mkCell pRoll1 0) (pRoll1_cell_mem 0 (by decide))).1 (by decide)

/-- C6: when the upsert mutation fails, the onError callback invalidates
the habit's cached query (so the next refetch replaces any optimistic
value with the authoritative server rows) and surfaces an error message
whose clearing is driven by a timeout scheduled 3000 milliseconds later,
with no user action involved. -/
theorem C6_error_recovery (habit : HabitProps) (clickNow now : Nat)
    (st : ClientState) (date : Int) (currentCount : Nat) (msg : String)
    (serverRows : List CacheEntry) :
    ((onUpsertError msg now
        (handleDayClick habit clickNow st date currentCount).1).cacheValid
      = false) ∧
    ((onUpsertError msg now
        (handleDayClick habit clickNow st date currentCount).1).error
      = some ("Failed to update: " ++ msg)) ∧
    ((now + 3000) ∈ (onUpsertError msg now
        (handleDayClick habit clickNow st date currentCount).1).pendingClearAt) ∧
    ((refetchIfInvalid serverRows (onUpsertError msg now
        (handleDayClick habit clickNow st date currentCount).1)).cache
      = some serverRows) ∧
    ((fireErrorClear (refetchIfInvalid serverRows (onUpsertError msg now
        (handleDayClick habit clickNow st date currentCount).1))).error
      = none) := by
  refine ⟨rfl, rfl, ?_, ?_, ?_⟩
  · simp [onUpsertError]
  · simp [refetchIfInvalid, onUpsertError]
  · simp [fireErrorClear]

theorem parseInt16_pair {a b : Char} {va vb : Nat}
    (ha : hexVal a = some va) (hb : hexVal b = some vb) :
    parseInt16 [a, b] = some (16 * va + vb) := by
  simp [parseInt16, List.takeWhile, ha, hb]

/-- C7: the color mapper yields the fixed neutral tone for intensity 0,
independently of the base color; and for every nonzero intensity in the
unit interval and every 6-hex-digit base color it yields an rgba color
whose channels are the decoded base channels and whose alpha is the
intensity. -/
theorem C7_color_mapper (color : String) (i : ℚ)
    (c1 c2 c3 c4 c5 c6 : Char) (v1 v2 v3 v4 v5 v6 : Nat)
    (hfilter : color.toList.filter (fun c => c != '#')
      = [c1, c2, c3, c4, c5, c6])
    (h1 : hexVal c1 = some v1) (h2 : hexVal c2 = some v2)
    (h3 : hexVal c3 = some v3) (h4 : hexVal c4 = some v4)
    (h5 : hexVal c5 = some v5) (h6 : hexVal c6 = some v6)
    (hi0 : 0 < i) (_hi1 : i ≤ 1) :
    (∀ base : String, getBackgroundColor base 0 = CSSColor.neutral) ∧
    getBackgroundColor color i =
      CSSColor.rgba (some (16 * v1 + v2)) (some (16 * v3 + v4))
        (some (16 * v5 + v6)) i := by
  constructor
  · intro base
    simp [getBackgroundColor]
  · rw [getBackgroundColor, if_neg hi0.ne', hfilter]
    simp only [List.take, List.drop]
    rw [parseInt16_pair h1 h2, parseInt16_pair h3 h4, parseInt16_pair h5 h6]

/-- Witness for C7: base color FFB3BA at intensity one half maps to
rgba(255, 179, 186, 1/2). -/
theorem C7_color_mapper_witness :
    getBackgroundColor "#FFB3BA" (1 / 2) =
      CSSColor.rgba (some 255) (some 179) (some 186) (1 / 2) :=
  (C7_color_mapper "#FFB3BA" (1 / 2) 'F' 'F' 'B' '3' 'B' 'A'
    15 15 11 3 11 10 rfl rfl rfl rfl rfl rfl rfl
    (by norm_num) (by norm_num)).2

/-- C8 as stated is false: habit.getById is not uniform in the habit's
existence — for a requester who is not the owner it returns ok null when
the habit does not exist but an UNAUTHORIZED error when it exists with a
different owner, so the observable result reveals whether the habit
exists. -/
theorem C8_counterexample :
    getByIdOp { habits := [], entries := [], nextId := 0 } "alice" "h1"
      = .ok none ∧
    getByIdOp { habits := [{ id := "h1", userId := "bob", dailyGoal := 1,
                             color := "#FFB3BA", isActive := true }],
                entries := [], nextId := 0 } "alice" "h1"
      = .error .unauthorized := by
  constructor <;> rfl

/-- C8 (amended): every habit-targeted and entry-targeted procedure
except habit.getById rejects a requester who is not the owner with the
same UNAUTHORIZED error, whether or not the target exists, leaving the
store unchanged; habit.getById instead throws UNAUTHORIZED only when the
habit exists with a foreign owner and returns null when it is absent. -/
theorem C8_ownership_checks (db : DB) (user habitId color : String)
    (s e d : Instant) (days cnt amount : Nat) (dOpt : Option Instant)
    (now : Instant) (entryId : Nat)
    (hNotOwner : ∀ h : HabitRow, findHabit db habitId = some h →
      h.userId ≠ user) :
    getByHabitAndDateRangeOp db user habitId s e = .error .unauthorized ∧
    getLastNDaysOp db user habitId days now = .error .unauthorized ∧
    getByHabitAndDateOp db user habitId d = .error .unauthorized ∧
    upsertOp db user habitId d cnt = (.error .unauthorized, db) ∧
    incrementOp db user habitId dOpt now amount = (.error .unauthorized, db) ∧
    updateHabitOp db user habitId cnt color = (.error .unauthorized, db) ∧
    archiveHabitOp db user habitId = (.error .unauthorized, db) ∧
    deleteHabitOp db user habitId = (.error .unauthorized, db) ∧
    ((∀ r : EntryRow, db.entries.find? (fun x => x.id == entryId) = some r →
        ∀ h : HabitRow, findHabit db r.habitId = some h → h.userId ≠ user) →
      deleteEntryOp db user entryId = (.error .unauthorized, db)) ∧
    (findHabit db habitId = none → getByIdOp db user habitId = .ok none) ∧
    (∀ h : HabitRow, findHabit db habitId = some h →
      getByIdOp db user habitId = .error .unauthorized) := by
  have hAuthE : habitAuthEntry db user habitId = .error .unauthorized := by
    unfold habitAuthEntry
    cases hfind : findHabit db habitId with
    | none => rfl
    | some h => simp [hNotOwner h hfind]
  have hAuthO : habitAuthOwner db user habitId = .error .unauthorized := by
    unfold habitAuthOwner
    cases hfind : findHabit db habitId with
    | none => rfl
    | some h => simp [hNotOwner h hfind]
  refine ⟨?_, ?_, ?_, ?_, ?_, ?_, ?_, ?_, ?_, ?_, ?_⟩
  · unfold getByHabitAndDateRangeOp; rw [hAuthE]
  · unfold getLastNDaysOp; rw [hAuthE]
  · unfold getByHabitAndDateOp; rw [hAuthE]
  · unfold upsertOp; rw [hAuthE]
  · unfold incrementOp; rw [hAuthE]
  · unfold updateHabitOp; rw [hAuthO]
  · unfold archiveHabitOp; rw [hAuthO]
  · unfold deleteHabitOp; rw [hAuthO]
  · intro hEntry
    unfold deleteEntryOp
    cases hfind : db.entries.find? (fun x => x.id == entryId) with
    | none => rfl
    | some r =>
      cases hhab : findHabit db r.habitId with
      | none => simp [hhab]
      | some h => simp [hhab, hEntry r hfind h hhab]
  · intro hnone
    unfold getByIdOp
    rw [hnone]
  · intro h hfind
    unfold getByIdOp
    rw [hfind]
    simp [hNotOwner h hfind]

/-- Witness for C8 (amended): alice's upsert against bob's habit is
rejected and leaves the store unchanged. -/
theorem C8_ownership_checks_witness :
    upsertOp { habits := [{ id := "h1", userId := "bob", dailyGoal := 1,
                            color := "#FFB3BA", isActive := true }],
               entries := [], nextId := 0 } "alice" "h1"
        { day := 0, minute := 0 } 2
      = (.error .unauthorized,
         { habits := [{ id := "h1", userId := "bob", dailyGoal := 1,
                        color := "#FFB3BA", isActive := true }],
           entries := [], nextId := 0 }) :=
  (C8_ownership_checks _ "alice" "h1" "#FFB3BA" { day := 0, minute := 0 }
    { day := 0, minute := 0 } { day := 0, minute := 0 } 1 2 1 none
    { day := 0, minute := 0 } 0 (by decide)).2.2.2.1

theorem instant_ext {a b : Instant} (h1 : a.day = b.day)
    (h2 : a.minute = b.minute) : a = b := by
  cases a; cases b; simp_all

theorem updateRowCount_map (habitId : String) (nd : Instant) (cnt : Nat)
    (l : List EntryRow) :
    (updateRowCount habitId nd cnt l).map (fun r => (r.habitId, r.date))
      = l.map (fun r => (r.habitId, r.date)) := by
  induction l with
  | nil => rfl
  | cons r rest ih =>
    by_cases hc : r.habitId = habitId ∧ r.date = nd
    · simp [updateRowCount, hc]
    · simp [updateRowCount, hc, ih]

theorem key_preserving_inv {l l' : List EntryRow}
    (hmap : l'.map (fun r => (r.habitId, r.date))
      = l.map (fun r => (r.habitId, r.date)))
    (hmin : ∀ r ∈ l, r.date.minute = 0)
    (hnodup : (l.map (fun r => (r.habitId, r.date.day))).Nodup) :
    (∀ r ∈ l', r.date.minute = 0) ∧
      (l'.map (fun r => (r.habitId, r.date.day))).Nodup := by
  constructor
  · intro r hr
    have hmem : (r.habitId, r.date) ∈ l.map (fun x => (x.habitId, x.date)) := by
      rw [← hmap]
      exact List.mem_map_of_mem _ hr
    obtain ⟨r0, hr0, heq⟩ := List.mem_map.mp hmem
    have hd : r0.date = r.date := (Prod.mk.injEq _ _ _ _ |>.mp heq).2
    rw [← hd]
    exact hmin r0 hr0
  · have hkey : l'.map (fun r => (r.habitId, r.date.day))
        = l.map (fun r => (r.habitId, r.date.day)) := by
      have := congrArg (List.map (fun p : String × Instant => (p.1, p.2.day))) hmap
      simpa [List.map_map, Function.comp_def] using this
    rw [hkey]
    exact hnodup

theorem find_none_key_not_mem {l : List EntryRow} {habitId : String}
    {nd : Instant}
    (hfind : l.find? (fun r => r.habitId == habitId && r.date == nd) = none)
    (hmin : ∀ r ∈ l, r.date.minute = 0) (hnd : nd.minute = 0) :
    (habitId, nd.day) ∉ l.map (fun r => (r.habitId, r.date.day)) := by
  intro hmem
  obtain ⟨r0, hr0, heq⟩ := List.mem_map.mp hmem
  have hh : r0.habitId = habitId := (Prod.mk.injEq _ _ _ _ |>.mp heq).1
  have hd : r0.date.day = nd.day := (Prod.mk.injEq _ _ _ _ |>.mp heq).2
  have hdate : r0.date = nd := instant_ext hd (by rw [hmin r0 hr0, hnd])
  have := List.find?_eq_none.mp hfind r0 hr0
  simp [hh, hdate] at this

theorem append_singleton_inv (l : List EntryRow) (row : EntryRow)
    (hmin : ∀ r ∈ l, r.date.minute = 0)
    (hnodup : (l.map (fun r => (r.habitId, r.date.day))).Nodup)
    (hrow : row.date.minute = 0)
    (hnotmem : (row.habitId, row.date.day)
      ∉ l.map (fun r => (r.habitId, r.date.day))) :
    (∀ r ∈ l ++ [row], r.date.minute = 0) ∧
      ((l ++ [row]).map (fun r => (r.habitId, r.date.day))).Nodup := by
  constructor
  · intro r hr
    rcases List.mem_append.mp hr with h1 | h2
    · exact hmin r h1
    · simp only [List.mem_singleton] at h2
      rw [h2]
      exact hrow
  · rw [List.map_append]
    refine List.Nodup.append hnodup (by simp) ?_
    intro a ha hb
    simp only [List.map_cons, List.map_nil, List.mem_singleton] at hb
    rw [hb] at ha
    exact hnotmem ha

theorem map_entry_preserving (f : EntryRow → EntryRow)
    (hf : ∀ x, (f x).habitId = x.habitId ∧ (f x).date = x.date)
    (l : List EntryRow) :
    (l.map f).map (fun r => (r.habitId, r.date))
      = l.map (fun r => (r.habitId, r.date)) := by
  induction l with
  | nil => rfl
  | cons x rest ih =>
    simp only [List.map_cons, ih, (hf x).1, (hf x).2]

theorem upsert_preserves (db : DB) (user habitId : String) (date : Instant)
    (cnt : Nat) (h : storeInv db) :
    storeInv (upsertOp db user habitId date cnt).2 := by
  obtain ⟨hmin, hnodup⟩ := h
  unfold upsertOp
  cases habitAuthEntry db user habitId with
  | error e => exact ⟨hmin, hnodup⟩
  | ok hab =>
    simp only
    cases hfind : db.entries.find?
        (fun r => r.habitId == habitId && r.date == date.normalize) with
    | some r =>
      have := key_preserving_inv
        (updateRowCount_map habitId date.normalize cnt db.entries) hmin hnodup
      exact ⟨this.1, this.2⟩
    | none =>
      have hnotmem := find_none_key_not_mem hfind hmin rfl
      have := append_singleton_inv db.entries
        { id := db.nextId, habitId := habitId,
          date := date.normalize, count := cnt } hmin hnodup rfl hnotmem
      exact ⟨this.1, this.2⟩

theorem increment_preserves (db : DB) (user habitId : String)
    (dOpt : Option Instant) (now : Instant) (amount : Nat)
    (h : storeInv db) :
    storeInv (incrementOp db user habitId dOpt now amount).2 := by
  obtain ⟨hmin, hnodup⟩ := h
  unfold incrementOp
  cases habitAuthEntry db user habitId with
  | error e => exact ⟨hmin, hnodup⟩
  | ok hab =>
    simp only
    cases hfind : db.entries.find?
        (fun r => r.habitId == habitId && r.date == (dOpt.getD now).normalize) with
    | some r =>
      have := key_preserving_inv
        (map_entry_preserving
          (fun x => if x.id = r.id then { x with count := r.count + amount } else x)
          (fun x => by by_cases hx : x.id = r.id <;> simp [hx]) db.entries)
        hmin hnodup
      exact ⟨this.1, this.2⟩
    | none =>
      have hnotmem := find_none_key_not_mem hfind hmin rfl
      have := append_singleton_inv db.entries
        { id := db.nextId, habitId := habitId,
          date := (dOpt.getD now).normalize, count := amount } hmin hnodup rfl hnotmem
      exact ⟨this.1, this.2⟩

/-- C9: across every sequence of upsert and increment operations the
entry store keeps its dates midnight-normalized and holds at most one
entry per (habit, calendar day) pair. -/
theorem C9_unique_entry_per_day (db : DB) (ops : List StoreOp)
    (hInv : storeInv db) : storeInv (applyOps db ops) := by
  induction ops generalizing db with
  | nil => exact hInv
  | cons op rest ih =>
    have hstep : storeInv (applyOp db op) := by
      cases op with
      | upsert u hid d c => exact upsert_preserves db u hid d c hInv
      | increment u hid d n a => exact increment_preserves db u hid d n a hInv
    exact ih (applyOp db op) hstep

/-- Witness for C9: a concrete upsert-increment-upsert run against one
habit keeps the per-day uniqueness invariant. -/
theorem C9_unique_entry_per_day_witness :
    storeInv (applyOps
      { habits := [{ id := "h1", userId := "u1", dailyGoal := 3,
                     color := "#FFB3BA", isActive := true }],
        entries := [], nextId := 0 }
      [.upsert "u1" "h1" { day := 19723, minute := 30 } 2,
       .increment "u1" "h1" none { day := 19723, minute := 600 } 1,
       .upsert "u1" "h1" { day := 19724, minute := 0 } 1]) :=
  C9_unique_entry_per_day _ _ ⟨by simp, by simp [atMostOnePerDay]⟩

set_option maxRecDepth 40000 in
/-- C4 is violated by the code: with today 2026-10-11, the dashboard
fetches entries with getLastNDays over 365 days regardless of the
selected year, so when year 2023 is selected the stored entry of
count 5 dated 2023-06-15 is not fetched and its grid cell (flat index
165 of the 2023 grid) shows count 0 instead of the recorded count. -/
theorem C4_year_fetch_gap :
    ((dashboardHeatmap dbC4 "u1"
        { id := "h1", userId := "u1", dailyGoal := 3,
          color := "#FFB3BA", isActive := true }
        365 { day := civilDay 2026 10 11, minute := 600 }
        (some 2023)).flatten[165]?).map (Option.map cellView) =
      some (some (civilDay 2023 6 15, 0, false)) ∧
    dbC4.entries.map (fun r => (r.date.day, r.count))
      = [(civilDay 2023 6 15, 5)] := by
  decide
